import Mathlib

/-!
Verification development for the PoC App Platform AWS worker service.

The Python worker (src/app/worker.py) and API (src/app/main.py) are embedded
shallowly: every external side effect (database round trip, cache write,
credential exchange, secret update) is represented by an explicit outcome
value passed into the embedded function, so the embedded functions are total
and executable.  An outcome of type `Except String Unit` stands for a Python
call that either returns normally (`.ok ()`) or raises an exception whose
`str` is the carried message (`.error msg`).
-/

namespace PocApp

/-- Python truthiness of an optional environment-variable string:
`os.environ.get` yields `None` (absent) or a string, and `all([...])`
treats `None` and the empty string as falsy. -/
def pytruthy : Option String → Bool
  | none => false
  | some s => !s.isEmpty

/-- The ad-hoc result dictionary each update operation returns:
either `\x7bsuccess: True, timestamp: ...\x7d` or `\x7bsuccess: False, error: ...\x7d`.
Fields absent from the Python dictionary are `none`. -/
structure OpDict where
  success : Bool
  timestamp : Option String
  error : Option String
deriving DecidableEq

/-- The `except Exception` clause shared by all three update operations:
a body that raises is converted to `\x7bsuccess: False, error: str(e)\x7d`;
a body that returns normally passes its dictionary through. -/
def handleOpException (body : Except String OpDict) : OpDict :=
  match body with
  | .ok d => d
  | .error e => { success := false, timestamp := none, error := some e }

/-- Embedding of `WorkerService.update_postgres` (worker.py lines 80-130).
`ts` is the generated UTC timestamp in ISO format; `pgCall` is the outcome of
the connect/execute/commit round trip against PostgreSQL. -/
def update_postgres (ts : String) (pgCall : Except String Unit) : OpDict :=
  handleOpException
    (match pgCall with
     | .ok _ => .ok { success := true, timestamp := some ts, error := none }
     | .error e => .error e)

/-- Embedding of `WorkerService.update_valkey` (worker.py lines 132-169).
`vkCall` is the outcome of the Valkey connect and SET round trip. -/
def update_valkey (ts : String) (vkCall : Except String Unit) : OpDict :=
  handleOpException
    (match vkCall with
     | .ok _ => .ok { success := true, timestamp := some ts, error := none }
     | .error e => .error e)

/-- The environment variables read by `update_secrets_manager` and the
Secrets Manager helpers.  Each field is `none` when the variable is absent. -/
structure WorkerEnv where
  iam_client_cert : Option String
  iam_client_key : Option String
  iam_role_arn : Option String
  iam_trust_anchor_arn : Option String
  iam_profile_arn : Option String
deriving DecidableEq

/-- Embedding of `WorkerService.update_secrets_manager` (worker.py lines
171-250).  `sessionCall` is the result of `get_iam_anywhere_session`, which
never raises and returns `None` on failure (modelled as `Option Unit`);
`updateCall` is the outcome of the `update_secret` API call. -/
def update_secrets_manager (env : WorkerEnv) (ts : String)
    (sessionCall : Option Unit) (updateCall : Except String Unit) : OpDict :=
  handleOpException
    (if !(pytruthy env.iam_client_cert && pytruthy env.iam_client_key &&
          pytruthy env.iam_role_arn) then
      .error "Missing IAM Roles Anywhere configuration"
    else
      match sessionCall with
      | none => .error "Failed to obtain IAM Roles Anywhere credentials"
      | some _ =>
        match updateCall with
        | .error e => .error e
        | .ok _ => .ok { success := true, timestamp := some ts, error := none })

/-- One entry of the list returned by `asyncio.gather(..., return_exceptions=True)`:
either the dictionary an operation returned, or the exception it raised. -/
inductive CycleItem where
  | value (d : OpDict)
  | exc (e : String)
deriving DecidableEq

/-- Spec-side predicate: the gather entry is a dictionary with `success == true`. -/
def isSuccessResult : CycleItem → Bool
  | .value d => d.success
  | .exc _ => false

/-- The result-analysis loop of `run_update_cycle` (worker.py lines 283-293):
exceptions add nothing, dictionaries with truthy `success` add one, all
other entries add nothing. -/
def tally_success (results : List CycleItem) : Nat :=
  results.foldl
    (fun acc r =>
      match r with
      | .exc _ => acc
      | .value d => if d.success then acc + 1 else acc)
    0

/-- All the per-cycle inputs of `run_update_cycle`: the environment, one
generated timestamp per operation, and the backend outcomes of each of the
three concurrently dispatched operations. -/
structure CycleOracles where
  env : WorkerEnv
  tsPg : String
  tsVk : String
  tsSm : String
  pgCall : Except String Unit
  vkCall : Except String Unit
  smSession : Option Unit
  smUpdate : Except String Unit

/-- Embedding of `WorkerService.run_update_cycle` (worker.py lines 252-304):
gather the three operation results (none of the three operations can raise,
so every gather entry is a returned dictionary), then tally the successes
for the cycle summary.  Returns the gathered results and `successful_updates`. -/
def run_update_cycle (o : CycleOracles) : List CycleItem × Nat :=
  let results : List CycleItem :=
    [ .value (update_postgres o.tsPg o.pgCall),
      .value (update_valkey o.tsVk o.vkCall),
      .value (update_secrets_manager o.env o.tsSm o.smSession o.smUpdate) ]
  (results, tally_success results)

lemma run_update_cycle_fst (o : CycleOracles) :
    (run_update_cycle o).1 =
      [ .value (update_postgres o.tsPg o.pgCall),
        .value (update_valkey o.tsVk o.vkCall),
        .value (update_secrets_manager o.env o.tsSm o.smSession o.smUpdate) ] :=
  rfl

lemma tally_success_aux (results : List CycleItem) (acc : Nat) :
    results.foldl
      (fun acc r =>
        match r with
        | .exc _ => acc
        | .value d => if d.success then acc + 1 else acc)
      acc = acc + results.countP isSuccessResult := by
  induction results generalizing acc with
  | nil => simp
  | cons r rs ih =>
    cases r with
    | exc e => simp [List.countP_cons, isSuccessResult, ih]
    | value d =>
      by_cases hd : d.success
      · simp [List.countP_cons, isSuccessResult, hd, ih]
        omega
      · simp [List.countP_cons, isSuccessResult, hd, ih]

/-- C1: the success count the cycle summary reports equals the number of
gather entries that are dictionaries with `success == true`, for every
possible list of gather entries (exception objects included), and in
particular for the list `run_update_cycle` actually gathers. -/
theorem cycle_success_count_correct :
    (∀ results : List CycleItem,
        tally_success results = results.countP isSuccessResult) ∧
    (∀ o : CycleOracles,
        (run_update_cycle o).2 = ((run_update_cycle o).1).countP isSuccessResult) := by
  constructor
  · intro results
    simpa using tally_success_aux results 0
  · intro o
    simpa using tally_success_aux (run_update_cycle o).1 0

/-- A result dictionary has one of the two tagged shapes of the contract:
success with a timestamp and no error, or failure with an error and no
timestamp. -/
def wellFormedResult (d : OpDict) : Prop :=
  (d.success = true ∧ d.timestamp.isSome ∧ d.error = none) ∨
  (d.success = false ∧ d.timestamp = none ∧ d.error.isSome)

/-- C6: each of the three update operations, for every environment and every
backend outcome (including raising ones), returns a dictionary of one of the
two tagged shapes; totality of the embedded functions reflects that the
enclosing `try/except Exception` never lets an exception reach the caller. -/
theorem update_ops_well_formed :
    (∀ (ts : String) (pgCall : Except String Unit),
        wellFormedResult (update_postgres ts pgCall)) ∧
    (∀ (ts : String) (vkCall : Except String Unit),
        wellFormedResult (update_valkey ts vkCall)) ∧
    (∀ (env : WorkerEnv) (ts : String) (sessionCall : Option Unit)
        (updateCall : Except String Unit),
        wellFormedResult (update_secrets_manager env ts sessionCall updateCall)) := by
  refine ⟨fun ts pgCall => ?_, fun ts vkCall => ?_,
    fun env ts sessionCall updateCall => ?_⟩
  · cases pgCall <;> simp [update_postgres, handleOpException, wellFormedResult]
  · cases vkCall <;> simp [update_valkey, handleOpException, wellFormedResult]
  · by_cases hc : pytruthy env.iam_client_cert && pytruthy env.iam_client_key &&
        pytruthy env.iam_role_arn
    · cases sessionCall with
      | none =>
        simp [update_secrets_manager, handleOpException, wellFormedResult, hc]
      | some u =>
        cases updateCall <;>
          simp [update_secrets_manager, handleOpException, wellFormedResult, hc]
    · simp [update_secrets_manager, handleOpException, wellFormedResult, hc]

/-- C2: the cycle runner gathers exactly one entry per operation, each entry
computed from that operation's own inputs alone, so changing one operation's
inputs (in particular, making it fail in any way) leaves the entries of the
other two operations untouched; all three entries exist before the summary
count is computed from them. -/
theorem cycle_isolates_failures :
    (∀ o : CycleOracles,
        (run_update_cycle o).1 =
          [ .value (update_postgres o.tsPg o.pgCall),
            .value (update_valkey o.tsVk o.vkCall),
            .value (update_secrets_manager o.env o.tsSm o.smSession o.smUpdate) ] ∧
        (run_update_cycle o).1.length = 3) ∧
    (∀ o o' : CycleOracles, o.tsVk = o'.tsVk → o.vkCall = o'.vkCall →
        o.env = o'.env → o.tsSm = o'.tsSm → o.smSession = o'.smSession →
        o.smUpdate = o'.smUpdate →
        (run_update_cycle o).1.drop 1 = (run_update_cycle o').1.drop 1) ∧
    (∀ o o' : CycleOracles, o.tsPg = o'.tsPg → o.pgCall = o'.pgCall →
        o.env = o'.env → o.tsSm = o'.tsSm → o.smSession = o'.smSession →
        o.smUpdate = o'.smUpdate →
        (run_update_cycle o).1.take 1 = (run_update_cycle o').1.take 1 ∧
        (run_update_cycle o).1.drop 2 = (run_update_cycle o').1.drop 2) ∧
    (∀ o o' : CycleOracles, o.tsPg = o'.tsPg → o.pgCall = o'.pgCall →
        o.tsVk = o'.tsVk → o.vkCall = o'.vkCall →
        (run_update_cycle o).1.take 2 = (run_update_cycle o').1.take 2) := by
  refine ⟨fun o => ⟨rfl, rfl⟩, ?_, ?_, ?_⟩
  · intro o o' h1 h2 h3 h4 h5 h6
    simp [run_update_cycle, h1, h2, h3, h4, h5, h6]
  · intro o o' h1 h2 h3 h4 h5 h6
    constructor <;> simp [run_update_cycle, h1, h2, h3, h4, h5, h6]
  · intro o o' h1 h2 h3 h4
    simp [run_update_cycle, h1, h2, h3, h4]

/-- A fully populated sample environment for concrete evaluations. -/
def sampleEnv : WorkerEnv :=
  { iam_client_cert := some "certdata", iam_client_key := some "keydata",
    iam_role_arn := some "arn:aws:iam::123456789012:role/poc",
    iam_trust_anchor_arn := some "arn:aws:rolesanywhere:ta",
    iam_profile_arn := some "arn:aws:rolesanywhere:profile" }

/-- Cycle inputs in which the Valkey round trip raises a simulated network
error while the other two operations succeed. -/
def oracleVkFails : CycleOracles :=
  { env := sampleEnv, tsPg := "2026-10-12T00:00:00", tsVk := "2026-10-12T00:00:00",
    tsSm := "2026-10-12T00:00:00", pgCall := .ok (),
    vkCall := .error "connection refused", smSession := some (), smUpdate := .ok () }

/-- Cycle inputs in which all three operations succeed. -/
def oracleAllOk : CycleOracles :=
  { env := sampleEnv, tsPg := "2026-10-12T00:00:00", tsVk := "2026-10-12T00:00:00",
    tsSm := "2026-10-12T00:00:00", pgCall := .ok (),
    vkCall := .ok (), smSession := some (), smUpdate := .ok () }

theorem cycle_isolates_failures_witness :
    (run_update_cycle oracleVkFails).1.take 1 =
      (run_update_cycle oracleAllOk).1.take 1 ∧
    (run_update_cycle oracleVkFails).1.drop 2 =
      (run_update_cycle oracleAllOk).1.drop 2 :=
  cycle_isolates_failures.2.2.1 oracleVkFails oracleAllOk rfl rfl rfl rfl rfl rfl

/-- The dictionary `assume_role_with_certificate` returns (main.py lines
258-336); keys that may be absent are optional. -/
structure AssumeRoleResult where
  success : Bool
  role_arn : Option String
  account : Option String
  user_id : Option String
  credentials_expiration : Option String
  subject_arn : Option String
  error : Option String
deriving DecidableEq

/-- The JSON body the IAM status endpoint returns. -/
structure IamStatusResponse where
  ok : Bool
  role_arn : Option String
  account : Option String
  user_id : Option String
  credentials_created : Option String
  credentials_expiry : Option String
  error : Option String
deriving DecidableEq

/-- Embedding of the `iam_status` endpoint handler (main.py lines 445-489),
taking the role-assumption result as input.  `parseTs` models the
timestamp-parsing try block: on success it yields the isoformat creation and
expiry strings; on failure it yields the exception text. -/
def iam_status (parseTs : String → Except String (String × String))
    (result : AssumeRoleResult) : IamStatusResponse :=
  let expiry_str := result.credentials_expiration
  if pytruthy expiry_str && result.success then
    match parseTs (expiry_str.getD "") with
    | .ok p =>
        { ok := result.success, role_arn := result.role_arn,
          account := result.account, user_id := result.user_id,
          credentials_created := some p.1, credentials_expiry := some p.2,
          error := result.error }
    | .error msg =>
        { ok := false, role_arn := result.role_arn, account := result.account,
          user_id := result.user_id, credentials_created := none,
          credentials_expiry := none,
          error := some ("Failed to obtain AWS credential timestamps: " ++ msg) }
  else
    if result.success then
      { ok := false, role_arn := result.role_arn, account := result.account,
        user_id := result.user_id, credentials_created := none,
        credentials_expiry := none,
        error := some "No AWS credential timestamps received - authentication incomplete" }
    else
      { ok := result.success, role_arn := result.role_arn, account := result.account,
        user_id := result.user_id, credentials_created := none,
        credentials_expiry := none, error := result.error }

/-- C9: the IAM status endpoint answers `ok = true` exactly when role
assumption reported success, an expiration string was present and nonempty,
and it parsed; whenever role assumption reported success but the expiration
is absent or unparsable, the endpoint answers `ok = false` with a populated
error field. -/
theorem iam_status_ok_requires_expiry
    (parseTs : String → Except String (String × String)) (r : AssumeRoleResult) :
    ((iam_status parseTs r).ok = true ↔
      r.success = true ∧ pytruthy r.credentials_expiration = true ∧
      ∃ p, parseTs (r.credentials_expiration.getD "") = .ok p) ∧
    (r.success = true →
      (pytruthy r.credentials_expiration = false ∨
        ∃ msg, parseTs (r.credentials_expiration.getD "") = .error msg) →
      (iam_status parseTs r).ok = false ∧
        ((iam_status parseTs r).error).isSome = true) := by
  by_cases hc : pytruthy r.credentials_expiration && r.success
  · rcases hp : parseTs (r.credentials_expiration.getD "") with msg | p
    · constructor
      · simp_all [iam_status]
      · intro hs hbad
        simp_all [iam_status]
    · constructor
      · simp_all [iam_status]
      · intro hs hbad
        rcases hbad with hbad | ⟨msg, hbad⟩
        · simp [hbad, hs] at hc
        · simp at hbad
  · rcases Bool.and_eq_false_iff.mp (Bool.not_eq_true _ |>.mp hc) with h | h
    · by_cases hs : r.success = true
      · constructor
        · simp_all [iam_status]
        · intro _ _
          simp_all [iam_status]
      · constructor
        · simp_all [iam_status]
        · intro h'
          exact absurd h' hs
    · constructor
      · simp_all [iam_status]
      · intro h'
        simp_all

/-- A sample role-assumption result that reports success but carries no
expiration timestamp. -/
def assumeNoExpiry : AssumeRoleResult :=
  { success := true, role_arn := some "arn:aws:sts::123456789012:assumed-role/poc/s",
    account := some "123456789012", user_id := some "AROAEXAMPLE",
    credentials_expiration := none, subject_arn := none, error := none }

/-- A sample timestamp parser that accepts nothing. -/
def parseNothing : String → Except String (String × String) :=
  fun s => .error ("Invalid isoformat string: " ++ s)

theorem iam_status_ok_requires_expiry_witness :
    (iam_status parseNothing assumeNoExpiry).ok = false ∧
      ((iam_status parseNothing assumeNoExpiry).error).isSome = true :=
  (iam_status_ok_requires_expiry parseNothing assumeNoExpiry).2 rfl (Or.inl rfl)

/-- The part of the `db_status` PostgreSQL dictionary that `worker_status`
reads. -/
structure PgStatusData where
  connected : Bool
  postgres_last_update : Option String
deriving DecidableEq

/-- The part of the `db_status` Valkey dictionary that `worker_status` reads. -/
structure ValkeyStatusData where
  connected : Bool
  valkey_last_update : Option String
deriving DecidableEq

/-- The part of the `secret_status` response that `worker_status` reads. -/
structure SecretStatusData where
  ok : Bool
  secret_last_update : Option String
deriving DecidableEq

/-- The stale threshold of `worker_status` (main.py line 531), in seconds. -/
def stale_threshold : Int := 90

/-- Embedding of the nested `calculate_age` helper (main.py lines 538-546).
`parseAge` models the try block: parsing the string and subtracting it from
the current time, yielding the age in seconds, or `none` when parsing raises. -/
def calculate_age (parseAge : String → Option Int) : Option String → Option Int
  | none => none
  | some s => if s.isEmpty then none else parseAge s

/-- One per-backend entry of the `worker_status` response. -/
structure TsEntry where
  last_update : Option String
  age_seconds : Option Int
  is_stale : Bool
  status : String
deriving DecidableEq

/-- The staleness test of `worker_status`: the age is `None` or strictly
above the threshold. -/
def isStaleAge : Option Int → Bool
  | none => true
  | some a => decide (stale_threshold < a)

/-- The `worker_status` response body. -/
structure WorkerStatusResponse where
  stale_threshold_seconds : Int
  postgres : TsEntry
  valkey : TsEntry
  secrets_manager : TsEntry
  overall_status : String
deriving DecidableEq

/-- Embedding of the `worker_status` endpoint handler (main.py lines 522-580),
taking the sub-endpoint results as inputs. -/
def worker_status (parseAge : String → Option Int)
    (pg : PgStatusData) (vk : ValkeyStatusData) (sec : SecretStatusData) :
    WorkerStatusResponse :=
  let postgres_age := calculate_age parseAge pg.postgres_last_update
  let valkey_age := calculate_age parseAge vk.valkey_last_update
  let secret_age := calculate_age parseAge sec.secret_last_update
  { stale_threshold_seconds := stale_threshold,
    postgres :=
      { last_update := pg.postgres_last_update, age_seconds := postgres_age,
        is_stale := isStaleAge postgres_age,
        status := if pg.connected then "ok" else "error" },
    valkey :=
      { last_update := vk.valkey_last_update, age_seconds := valkey_age,
        is_stale := isStaleAge valkey_age,
        status := if vk.connected then "ok" else "error" },
    secrets_manager :=
      { last_update := sec.secret_last_update, age_seconds := secret_age,
        is_stale := isStaleAge secret_age,
        status := if sec.ok then "ok" else "error" },
    overall_status :=
      if pg.connected && vk.connected && sec.ok then "ok" else "error" }

lemma isStaleAge_iff (a : Option Int) :
    isStaleAge a = true ↔ a = none ∨ ∃ x, a = some x ∧ stale_threshold < x := by
  cases a <;> simp [isStaleAge]

/-- C10: in the aggregated worker status, each backend's `is_stale` is true
exactly when that backend's computed age is absent or strictly above the
90-second threshold, and `overall_status` is the string of an ok state
exactly when the database and cache report connected and the secret
retrieval reports ok, with no dependence on the staleness results. -/
theorem worker_status_stale_and_overall (parseAge : String → Option Int)
    (pg : PgStatusData) (vk : ValkeyStatusData) (sec : SecretStatusData) :
    ((worker_status parseAge pg vk sec).postgres.is_stale = true ↔
      calculate_age parseAge pg.postgres_last_update = none ∨
      ∃ x, calculate_age parseAge pg.postgres_last_update = some x ∧
        stale_threshold < x) ∧
    ((worker_status parseAge pg vk sec).valkey.is_stale = true ↔
      calculate_age parseAge vk.valkey_last_update = none ∨
      ∃ x, calculate_age parseAge vk.valkey_last_update = some x ∧
        stale_threshold < x) ∧
    ((worker_status parseAge pg vk sec).secrets_manager.is_stale = true ↔
      calculate_age parseAge sec.secret_last_update = none ∨
      ∃ x, calculate_age parseAge sec.secret_last_update = some x ∧
        stale_threshold < x) ∧
    ((worker_status parseAge pg vk sec).overall_status = "ok" ↔
      pg.connected = true ∧ vk.connected = true ∧ sec.ok = true) := by
  refine ⟨?_, ?_, ?_, ?_⟩
  · simpa [worker_status] using
      isStaleAge_iff (calculate_age parseAge pg.postgres_last_update)
  · simpa [worker_status] using
      isStaleAge_iff (calculate_age parseAge vk.valkey_last_update)
  · simpa [worker_status] using
      isStaleAge_iff (calculate_age parseAge sec.secret_last_update)
  · by_cases hcond : pg.connected && vk.connected && sec.ok
    · have h := Bool.and_eq_true_iff.mp hcond
      have h' := Bool.and_eq_true_iff.mp h.1
      simp [worker_status, hcond, h'.1, h'.2, h.2]
    · simp only [worker_status, hcond, if_false]
      constructor
      · intro habs
        exact absurd habs (by decide)
      · intro ⟨h1, h2, h3⟩
        simp [h1, h2, h3] at hcond

/-- What cycle number `n` does when the main loop attempts it: either the
cycle runner executes normally with the given per-operation inputs, or the
cycle runner itself raises an unexpected exception (the situation the main
loop's `except` clause is for). -/
inductive CycleSpec where
  | runs (o : CycleOracles)
  | raises (msg : String)

/-- The external inputs of one run of `WorkerService.main_loop` (worker.py
lines 306-349).  Time is measured in seconds, the unit of one sleep slice.
`shutdownTime` is the instant from which `self.running` reads false (the
signal handler only ever clears the flag); `cycleDuration` is how long cycle
number `n` takes before its summary is emitted. -/
structure LoopInputs where
  interval : Nat
  shutdownTime : Option Nat
  cycle : Nat → CycleSpec
  cycleDuration : Nat → Nat

/-- The value of `self.running` read at time `t`. -/
def runningFlag (inp : LoopInputs) (t : Nat) : Bool :=
  match inp.shutdownTime with
  | none => true
  | some T => decide (t < T)

/-- The back-off delay of the main loop's `except` clause, in seconds. -/
def backoffDelay : Nat := 10

/-- The configured `update_interval` of `WorkerService.__init__`, in seconds. -/
def update_interval : Nat := 60

/-- The inter-cycle wait (worker.py lines 336-340): up to `k` one-second
slices, each preceded by a check of `self.running` that breaks out of the
wait when the flag is cleared.  Returns the number of slices actually slept,
which is also the elapsed time of the wait. -/
def sleep_slices (inp : LoopInputs) (t : Nat) : Nat → Nat
  | 0 => 0
  | k + 1 => if runningFlag inp t then sleep_slices inp (t + 1) k + 1 else 0

/-- Observable events of one run of the main loop. -/
inductive Event where
  | cycleStart (n : Nat)
  | opDone (n : Nat) (idx : Nat) (item : CycleItem)
  | summary (n : Nat) (successCount : Nat)
  | cycleError (n : Nat) (msg : String)
  | backoff (n : Nat)
  | exitLoop (completedCycles : Nat)
deriving DecidableEq

/-- The per-operation completion events of cycle `n`, one per gather entry,
numbered from `i`. -/
def opEvents (n : Nat) : Nat → List CycleItem → List Event
  | _, [] => []
  | i, r :: rs => Event.opDone n i r :: opEvents n (i + 1) rs

/-- The mutable state of the main loop: the clock, `cycle_count`, and whether
the `while` loop has returned. -/
structure LoopState where
  t : Nat
  cycleCount : Nat
  exited : Bool
deriving DecidableEq

/-- One pass through the body of the `while self.running` loop, including the
loop-condition check (worker.py lines 325-346): when the flag is cleared the
loop returns; when cycle `n = cycle_count + 1` runs normally the cycle events
are emitted and the inter-cycle wait follows; when the cycle runner raises,
the exception is caught and exactly one back-off delay is slept. -/
def loop_iter (inp : LoopInputs) (s : LoopState) : List Event × LoopState :=
  if s.exited then ([], s)
  else if runningFlag inp s.t then
    let n := s.cycleCount + 1
    match inp.cycle n with
    | .runs o =>
        let rc := run_update_cycle o
        let t1 := s.t + inp.cycleDuration n
        let slept := sleep_slices inp t1 inp.interval
        (Event.cycleStart n :: opEvents n 0 rc.1 ++ [Event.summary n rc.2],
         { t := t1 + slept, cycleCount := n, exited := false })
    | .raises msg =>
        ([Event.cycleStart n, Event.cycleError n msg, Event.backoff n],
         { t := s.t + inp.cycleDuration n + backoffDelay,
           cycleCount := n, exited := false })
  else
    ([Event.exitLoop s.cycleCount], { s with exited := true })

/-- The whole main loop as an event trace, bounded by `fuel` loop passes
(the loop itself has no built-in bound: it runs until the flag clears). -/
def main_loop (inp : LoopInputs) : Nat → LoopState → List Event
  | 0, _ => []
  | fuel + 1, s =>
      if s.exited then []
      else
        let step := loop_iter inp s
        step.1 ++ main_loop inp fuel step.2

/-- The loop state at process start. -/
def initialState : LoopState := { t := 0, cycleCount := 0, exited := false }

/-- Embedding of `ensure_database_schema` (worker.py lines 351-398): the
schema round trip either succeeds or re-raises its exception. -/
def ensure_database_schema (schemaCall : Except String Unit) :
    Except String Unit :=
  match schemaCall with
  | .ok _ => .ok ()
  | .error e => .error e

/-- How the worker process ended: a graceful return from `main`, or
`sys.exit` with the given code. -/
inductive ProcessExit where
  | graceful
  | exitCode (code : Nat)
deriving DecidableEq

/-- What one run of the worker entry point did. -/
structure MainRun where
  startedLoop : Bool
  trace : List Event
  exit : ProcessExit
deriving DecidableEq

/-- Embedding of the `main` entry point of worker.py (lines 400-443): the
schema check runs before anything else; if it raises, the enclosing `except
Exception` calls `sys.exit(1)` and the main loop is never started; otherwise
the main loop runs and `main` returns normally. -/
def worker_main (schemaCall : Except String Unit) (inp : LoopInputs)
    (fuel : Nat) : MainRun :=
  match ensure_database_schema schemaCall with
  | .error _ => { startedLoop := false, trace := [], exit := .exitCode 1 }
  | .ok _ =>
      { startedLoop := true, trace := main_loop inp fuel initialState,
        exit := .graceful }

lemma main_loop_exited (inp : LoopInputs) (fuel : Nat) (s : LoopState)
    (h : s.exited = true) : main_loop inp fuel s = [] := by
  cases fuel <;> simp [main_loop, h]

lemma main_loop_succ (inp : LoopInputs) (fuel : Nat) (s : LoopState)
    (hex : s.exited = false) :
    main_loop inp (fuel + 1) s =
      (loop_iter inp s).1 ++ main_loop inp fuel (loop_iter inp s).2 := by
  simp [main_loop, hex]

lemma loop_iter_runs (inp : LoopInputs) (s : LoopState) (o : CycleOracles)
    (hex : s.exited = false) (hrun : runningFlag inp s.t = true)
    (hc : inp.cycle (s.cycleCount + 1) = .runs o) :
    loop_iter inp s =
      (Event.cycleStart (s.cycleCount + 1) ::
         opEvents (s.cycleCount + 1) 0 (run_update_cycle o).1 ++
         [Event.summary (s.cycleCount + 1) (run_update_cycle o).2],
       { t := s.t + inp.cycleDuration (s.cycleCount + 1) +
              sleep_slices inp (s.t + inp.cycleDuration (s.cycleCount + 1))
                inp.interval,
         cycleCount := s.cycleCount + 1, exited := false }) := by
  simp [loop_iter, hex, hrun, hc]

lemma loop_iter_raises (inp : LoopInputs) (s : LoopState) (msg : String)
    (hex : s.exited = false) (hrun : runningFlag inp s.t = true)
    (hc : inp.cycle (s.cycleCount + 1) = .raises msg) :
    loop_iter inp s =
      ([Event.cycleStart (s.cycleCount + 1),
        Event.cycleError (s.cycleCount + 1) msg,
        Event.backoff (s.cycleCount + 1)],
       { t := s.t + inp.cycleDuration (s.cycleCount + 1) + backoffDelay,
         cycleCount := s.cycleCount + 1, exited := false }) := by
  simp [loop_iter, hex, hrun, hc]

lemma loop_iter_stopped (inp : LoopInputs) (s : LoopState)
    (hex : s.exited = false) (hrun : runningFlag inp s.t = false) :
    loop_iter inp s =
      ([Event.exitLoop s.cycleCount], { s with exited := true }) := by
  simp [loop_iter, hex, hrun]

/-- C3: when the cycle runner itself raises, the main loop catches the
exception, emits the error record, sleeps exactly one fixed back-off delay,
and continues with the next cycle attempt from a non-exited state; the
exception never escapes the loop function. -/
theorem loop_recovers_from_cycle_exception (inp : LoopInputs) (fuel : Nat)
    (s : LoopState) (msg : String)
    (hex : s.exited = false)
    (hrun : runningFlag inp s.t = true)
    (hc : inp.cycle (s.cycleCount + 1) = .raises msg) :
    main_loop inp (fuel + 1) s =
      [Event.cycleStart (s.cycleCount + 1),
       Event.cycleError (s.cycleCount + 1) msg,
       Event.backoff (s.cycleCount + 1)] ++
        main_loop inp fuel
          { t := s.t + inp.cycleDuration (s.cycleCount + 1) + backoffDelay,
            cycleCount := s.cycleCount + 1, exited := false } ∧
    (loop_iter inp s).2.exited = false := by
  rw [main_loop_succ inp fuel s hex, loop_iter_raises inp s msg hex hrun hc]
  exact ⟨rfl, rfl⟩

/-- Loop inputs in which every cycle attempt makes the cycle runner raise. -/
def inpRaise : LoopInputs :=
  { interval := update_interval, shutdownTime := none,
    cycle := fun _ => .raises "simulated crash", cycleDuration := fun _ => 1 }

theorem loop_recovers_from_cycle_exception_witness :
    main_loop inpRaise 1 initialState =
      [Event.cycleStart 1, Event.cycleError 1 "simulated crash",
       Event.backoff 1] ++
        main_loop inpRaise 0
          { t := 1 + backoffDelay, cycleCount := 1, exited := false } ∧
    (loop_iter inpRaise initialState).2.exited = false :=
  loop_recovers_from_cycle_exception inpRaise 0 initialState
    "simulated crash" rfl rfl rfl

lemma sleep_slices_stops_at_shutdown (inp : LoopInputs) (T : Nat)
    (hT : inp.shutdownTime = some T) :
    ∀ (k t1 : Nat), t1 ≤ T → T < t1 + k → sleep_slices inp t1 k = T - t1 := by
  intro k
  induction k with
  | zero => intro t1 h1 h2; omega
  | succ k ih =>
    intro t1 h1 h2
    by_cases hlt : t1 < T
    · have hr : runningFlag inp t1 = true := by simp [runningFlag, hT, hlt]
      have h2' : T < t1 + 1 + k := by omega
      simp [sleep_slices, hr, ih (t1 + 1) hlt h2']
      omega
    · have ht1 : t1 = T := by omega
      subst ht1
      have hr : runningFlag inp t1 = false := by simp [runningFlag, hT]
      simp [sleep_slices, hr]

/-- C4: when the shutdown flag clears at instant `T` while the loop is in
its inter-cycle wait, the wait lasts exactly `T - t1` slices (it ends at the
very check that observes the cleared flag, within one slice of the clearing,
not the full interval), and the loop then returns without starting another
cycle. -/
theorem shutdown_during_wait_exits_promptly (inp : LoopInputs) (fuel : Nat)
    (s : LoopState) (o : CycleOracles) (T : Nat)
    (hex : s.exited = false)
    (hc : inp.cycle (s.cycleCount + 1) = .runs o)
    (hT : inp.shutdownTime = some T)
    (hstart : s.t < T)
    (hwait : s.t + inp.cycleDuration (s.cycleCount + 1) ≤ T)
    (hbefore : T < s.t + inp.cycleDuration (s.cycleCount + 1) + inp.interval) :
    sleep_slices inp (s.t + inp.cycleDuration (s.cycleCount + 1)) inp.interval =
      T - (s.t + inp.cycleDuration (s.cycleCount + 1)) ∧
    main_loop inp (fuel + 1 + 1) s =
      Event.cycleStart (s.cycleCount + 1) ::
        opEvents (s.cycleCount + 1) 0 (run_update_cycle o).1 ++
        [Event.summary (s.cycleCount + 1) (run_update_cycle o).2,
         Event.exitLoop (s.cycleCount + 1)] := by
  have hr0 : runningFlag inp s.t = true := by simp [runningFlag, hT, hstart]
  have hsl := sleep_slices_stops_at_shutdown inp T hT inp.interval
    (s.t + inp.cycleDuration (s.cycleCount + 1)) hwait hbefore
  refine ⟨hsl, ?_⟩
  rw [main_loop_succ inp (fuel + 1) s hex, loop_iter_runs inp s o hex hr0 hc]
  have hteq : s.t + inp.cycleDuration (s.cycleCount + 1) +
      sleep_slices inp (s.t + inp.cycleDuration (s.cycleCount + 1))
        inp.interval = T := by
    rw [hsl]; omega
  have hr1 : runningFlag inp T = false := by simp [runningFlag, hT]
  rw [main_loop_succ, loop_iter_stopped, main_loop_exited]
  · simp [hteq]
  · rfl
  · rfl
  · simpa [hteq] using hr1
  · rfl

/-- Loop inputs in which all cycles succeed and the shutdown signal arrives
thirty seconds into the first inter-cycle wait. -/
def inpShutdownMidWait : LoopInputs :=
  { interval := update_interval, shutdownTime := some 30,
    cycle := fun _ => .runs oracleAllOk, cycleDuration := fun _ => 0 }

theorem shutdown_during_wait_exits_promptly_witness :
    sleep_slices inpShutdownMidWait 0 update_interval = 30 ∧
    main_loop inpShutdownMidWait 2 initialState =
      Event.cycleStart 1 :: opEvents 1 0 (run_update_cycle oracleAllOk).1 ++
        [Event.summary 1 (run_update_cycle oracleAllOk).2, Event.exitLoop 1] :=
  shutdown_during_wait_exits_promptly inpShutdownMidWait 0 initialState
    oracleAllOk 30 rfl rfl rfl (by decide) (by decide) (by decide)

/-- C5: a schema-initialization failure at worker start is fatal (the entry
point never starts the main loop and exits with code 1, not a graceful
return), while with a healthy schema check the entry point always starts the
loop and returns gracefully, whatever the backends do during cycles. -/
theorem schema_failure_fatal :
    (∀ (e : String) (inp : LoopInputs) (fuel : Nat),
        worker_main (.error e) inp fuel =
          { startedLoop := false, trace := [], exit := .exitCode 1 } ∧
        (worker_main (.error e) inp fuel).exit ≠ .graceful) ∧
    (∀ (inp : LoopInputs) (fuel : Nat),
        (worker_main (.ok ()) inp fuel).startedLoop = true ∧
        (worker_main (.ok ()) inp fuel).exit = .graceful) := by
  constructor
  · intro e inp fuel
    exact ⟨rfl, by simp [worker_main, ensure_database_schema]⟩
  · intro inp fuel
    exact ⟨rfl, rfl⟩

/-- C7: with any of the three identity variables missing, the secret-store
update reports exactly the missing-configuration failure dictionary; the
other two gather entries of the same cycle are still the results of their
own operations; and a normally-running loop pass never sets the exit flag,
so later cycles still happen. -/
theorem missing_iam_config_isolated (env : WorkerEnv) (ts : String)
    (sessionCall : Option Unit) (updateCall : Except String Unit)
    (hmiss : pytruthy env.iam_client_cert = false ∨
             pytruthy env.iam_client_key = false ∨
             pytruthy env.iam_role_arn = false) :
    update_secrets_manager env ts sessionCall updateCall =
      { success := false, timestamp := none,
        error := some "Missing IAM Roles Anywhere configuration" } ∧
    (∀ o : CycleOracles, o.env = env → o.tsSm = ts →
        o.smSession = sessionCall → o.smUpdate = updateCall →
        (run_update_cycle o).1 =
          [ .value (update_postgres o.tsPg o.pgCall),
            .value (update_valkey o.tsVk o.vkCall),
            .value { success := false, timestamp := none,
                     error := some "Missing IAM Roles Anywhere configuration" } ]) ∧
    (∀ (inp : LoopInputs) (s : LoopState) (o : CycleOracles),
        s.exited = false → runningFlag inp s.t = true →
        inp.cycle (s.cycleCount + 1) = .runs o →
        (loop_iter inp s).2.exited = false) := by
  have hfail : update_secrets_manager env ts sessionCall updateCall =
      { success := false, timestamp := none,
        error := some "Missing IAM Roles Anywhere configuration" } := by
    rcases hmiss with h | h | h <;>
      simp [update_secrets_manager, handleOpException, h]
  refine ⟨hfail, ?_, ?_⟩
  · intro o h1 h2 h3 h4
    rw [run_update_cycle]
    rw [h1, h2, h3, h4, hfail]
  · intro inp s o hex hrun hc
    rw [loop_iter_runs inp s o hex hrun hc]

/-- An environment whose client-certificate variable is absent. -/
def envNoCert : WorkerEnv := { sampleEnv with iam_client_cert := none }

theorem missing_iam_config_isolated_witness :
    update_secrets_manager envNoCert "2026-10-12T00:00:00" (some ()) (.ok ()) =
      { success := false, timestamp := none,
        error := some "Missing IAM Roles Anywhere configuration" } :=
  (missing_iam_config_isolated envNoCert "2026-10-12T00:00:00" (some ())
    (.ok ()) (Or.inl rfl)).1

/-- A phase rank of an event: all events of cycle `n` rank below all events
of cycle `n + 1`, and within a cycle the start precedes the operation
completions, which precede the summary, which precedes the back-off. -/
def evRank : Event → Nat
  | .cycleStart n => 4 * n
  | .opDone n _ _ => 4 * n + 1
  | .cycleError n _ => 4 * n + 1
  | .summary n _ => 4 * n + 2
  | .backoff n => 4 * n + 3
  | .exitLoop c => 4 * (c + 1)

lemma opEvents_rank (n : Nat) :
    ∀ (rs : List CycleItem) (i : Nat) (e : Event),
      e ∈ opEvents n i rs → evRank e = 4 * n + 1 := by
  intro rs
  induction rs with
  | nil => intro i e he; simp [opEvents] at he
  | cons r rs ih =>
    intro i e he
    simp only [opEvents] at he
    rcases List.mem_cons.mp he with h | h
    · subst h; rfl
    · exact ih (i + 1) e h

lemma opEvents_pairwise (n i : Nat) (rs : List CycleItem) :
    (opEvents n i rs).Pairwise (fun a b => evRank a ≤ evRank b) := by
  induction rs generalizing i with
  | nil => simp [opEvents]
  | cons r rs ih =>
    simp only [opEvents]
    refine List.Pairwise.cons ?_ (ih (i + 1))
    intro b hb
    have hbr := opEvents_rank n rs (i + 1) b hb
    rw [hbr]
    simp only [evRank]
    omega

lemma block_pairwise (n i k : Nat) (rs : List CycleItem) :
    (Event.cycleStart n :: opEvents n i rs ++
        [Event.summary n k]).Pairwise (fun a b => evRank a ≤ evRank b) := by
  refine List.Pairwise.cons ?_ ?_
  · intro b hb
    rcases List.mem_append.mp hb with h | h
    · have hbr := opEvents_rank n rs i b h
      rw [hbr]
      simp only [evRank]
      omega
    · simp only [List.mem_singleton] at h
      subst h
      simp only [evRank]
      omega
  · refine List.pairwise_append.mpr ⟨opEvents_pairwise n i rs, ?_, ?_⟩
    · simp
    · intro a ha b hb
      simp only [List.mem_singleton] at hb
      subst hb
      have har := opEvents_rank n rs i a ha
      rw [har]
      simp only [evRank]
      omega

lemma block_rank_ub (n i k : Nat) (rs : List CycleItem) (e : Event)
    (he : e ∈ Event.cycleStart n :: opEvents n i rs ++ [Event.summary n k]) :
    evRank e ≤ 4 * n + 2 := by
  rcases List.mem_cons.mp he with h | h
  · subst h; simp only [evRank]; omega
  · rcases List.mem_append.mp h with h | h
    · have := opEvents_rank n rs i e h; omega
    · simp only [List.mem_singleton] at h
      subst h; simp only [evRank]; omega

lemma block_rank_lb (n i k : Nat) (rs : List CycleItem) (e : Event)
    (he : e ∈ Event.cycleStart n :: opEvents n i rs ++ [Event.summary n k]) :
    4 * n ≤ evRank e := by
  rcases List.mem_cons.mp he with h | h
  · subst h; simp only [evRank]; omega
  · rcases List.mem_append.mp h with h | h
    · have := opEvents_rank n rs i e h; omega
    · simp only [List.mem_singleton] at h
      subst h; simp only [evRank]; omega

lemma main_loop_rank_lb (inp : LoopInputs) :
    ∀ (fuel : Nat) (s : LoopState) (e : Event),
      e ∈ main_loop inp fuel s → 4 * (s.cycleCount + 1) ≤ evRank e := by
  intro fuel
  induction fuel with
  | zero => intro s e he; simp [main_loop] at he
  | succ fuel ih =>
    intro s e he
    cases hex : s.exited with
    | true => rw [main_loop_exited inp (fuel + 1) s hex] at he; simp at he
    | false =>
      rw [main_loop_succ inp fuel s hex] at he
      cases hrun : runningFlag inp s.t with
      | false =>
        rw [loop_iter_stopped inp s hex hrun] at he
        rcases List.mem_append.mp he with h | h
        · simp only [List.mem_singleton] at h
          subst h; simp only [evRank]; omega
        · rw [main_loop_exited inp fuel _ rfl] at h
          simp at h
      | true =>
        cases hc : inp.cycle (s.cycleCount + 1) with
        | runs o =>
          rw [loop_iter_runs inp s o hex hrun hc] at he
          rcases List.mem_append.mp he with h | h
          · exact block_rank_lb _ _ _ _ e h
          · have hb : 4 * (s.cycleCount + 1 + 1) ≤ evRank e := ih _ e h
            omega
        | raises msg =>
          rw [loop_iter_raises inp s msg hex hrun hc] at he
          rcases List.mem_cons.mp he with h | h
          · subst h; simp only [evRank]; omega
          · rcases List.mem_cons.mp h with h | h
            · subst h; simp only [evRank]; omega
            · rcases List.mem_cons.mp h with h | h
              · subst h; simp only [evRank]; omega
              · have hb : 4 * (s.cycleCount + 1 + 1) ≤ evRank e := ih _ e h
                omega

lemma main_loop_rank_sorted (inp : LoopInputs) :
    ∀ (fuel : Nat) (s : LoopState),
      (main_loop inp fuel s).Pairwise (fun a b => evRank a ≤ evRank b) := by
  intro fuel
  induction fuel with
  | zero => intro s; simp [main_loop]
  | succ fuel ih =>
    intro s
    cases hex : s.exited with
    | true => rw [main_loop_exited inp (fuel + 1) s hex]; simp
    | false =>
      rw [main_loop_succ inp fuel s hex]
      cases hrun : runningFlag inp s.t with
      | false =>
        rw [loop_iter_stopped inp s hex hrun, main_loop_exited inp fuel _ rfl]
        simp
      | true =>
        cases hc : inp.cycle (s.cycleCount + 1) with
        | runs o =>
          rw [loop_iter_runs inp s o hex hrun hc]
          refine List.pairwise_append.mpr ⟨block_pairwise _ _ _ _, ih _, ?_⟩
          intro a ha b hb
          have hau := block_rank_ub _ _ _ _ a ha
          have hbl : 4 * (s.cycleCount + 1 + 1) ≤ evRank b :=
            main_loop_rank_lb inp fuel _ b hb
          omega
        | raises msg =>
          rw [loop_iter_raises inp s msg hex hrun hc]
          refine List.pairwise_append.mpr ⟨?_, ih _, ?_⟩
          · refine List.Pairwise.cons ?_
              (List.Pairwise.cons ?_ (List.Pairwise.cons ?_ List.Pairwise.nil))
            · intro b hb
              rcases List.mem_cons.mp hb with h | h
              · subst h; simp only [evRank]; omega
              · simp only [List.mem_singleton] at h
                subst h; simp only [evRank]; omega
            · intro b hb
              simp only [List.mem_singleton] at hb
              subst hb; simp only [evRank]; omega
            · intro b hb; simp at hb
          · intro a ha b hb
            have hbl : 4 * (s.cycleCount + 1 + 1) ≤ evRank b :=
              main_loop_rank_lb inp fuel _ b hb
            rcases List.mem_cons.mp ha with h | h
            · subst h
              have ha' : evRank (Event.cycleStart (s.cycleCount + 1)) =
                  4 * (s.cycleCount + 1) := rfl
              omega
            · rcases List.mem_cons.mp h with h | h
              · subst h
                have ha' : evRank (Event.cycleError (s.cycleCount + 1) msg) =
                    4 * (s.cycleCount + 1) + 1 := rfl
                omega
              · rcases List.mem_cons.mp h with h | h
                · subst h
                  have ha' : evRank (Event.backoff (s.cycleCount + 1)) =
                      4 * (s.cycleCount + 1) + 3 := rfl
                  omega
                · simp at h

lemma summary_mem_ops (inp : LoopInputs) :
    ∀ (fuel : Nat) (s : LoopState) (n k : Nat),
      Event.summary n k ∈ main_loop inp fuel s →
      ∃ r0 r1 r2,
        Event.opDone n 0 r0 ∈ main_loop inp fuel s ∧
        Event.opDone n 1 r1 ∈ main_loop inp fuel s ∧
        Event.opDone n 2 r2 ∈ main_loop inp fuel s := by
  intro fuel
  induction fuel with
  | zero => intro s n k he; simp [main_loop] at he
  | succ fuel ih =>
    intro s n k he
    cases hex : s.exited with
    | true => rw [main_loop_exited inp (fuel + 1) s hex] at he; simp at he
    | false =>
      rw [main_loop_succ inp fuel s hex] at he
      rw [main_loop_succ inp fuel s hex]
      cases hrun : runningFlag inp s.t with
      | false =>
        rw [loop_iter_stopped inp s hex hrun] at he ⊢
        rw [main_loop_exited inp fuel _ rfl] at he
        simp at he
      | true =>
        cases hc : inp.cycle (s.cycleCount + 1) with
        | runs o =>
          rw [loop_iter_runs inp s o hex hrun hc] at he ⊢
          rw [run_update_cycle_fst o] at he ⊢
          simp only [opEvents] at he ⊢
          rcases List.mem_append.mp he with h | h
          · have hn : n = s.cycleCount + 1 := by
              simp at h
              exact h.1
            subst hn
            refine ⟨.value (update_postgres o.tsPg o.pgCall),
                    .value (update_valkey o.tsVk o.vkCall),
                    .value (update_secrets_manager o.env o.tsSm o.smSession
                      o.smUpdate), ?_, ?_, ?_⟩ <;> simp
          · obtain ⟨r0, r1, r2, h0, h1, h2⟩ := ih _ n k h
            exact ⟨r0, r1, r2,
              List.mem_append_right _ h0,
              List.mem_append_right _ h1,
              List.mem_append_right _ h2⟩
        | raises msg =>
          rw [loop_iter_raises inp s msg hex hrun hc] at he ⊢
          rcases List.mem_append.mp he with h | h
          · simp at h
          · obtain ⟨r0, r1, r2, h0, h1, h2⟩ := ih _ n k h
            exact ⟨r0, r1, r2,
              List.mem_append_right _ h0,
              List.mem_append_right _ h1,
              List.mem_append_right _ h2⟩

/-- C8: wherever a loop trace splits around the summary of cycle `n`, every
operation completion before that summary belongs to a cycle at most `n`,
every operation completion after it belongs to a cycle strictly after `n`,
and all three operation completions of cycle `n` are before the summary: no
operation of cycle `n + 1` begins until cycle `n` has fully completed and
its summary is emitted. -/
theorem cycles_do_not_overlap (inp : LoopInputs) (fuel : Nat) (s : LoopState)
    (pre post : List Event) (n k : Nat)
    (htr : main_loop inp fuel s = pre ++ Event.summary n k :: post) :
    (∀ (m i : Nat) (r : CycleItem), Event.opDone m i r ∈ pre → m ≤ n) ∧
    (∀ (m i : Nat) (r : CycleItem), Event.opDone m i r ∈ post → n < m) ∧
    (∃ r0 r1 r2,
        Event.opDone n 0 r0 ∈ pre ∧ Event.opDone n 1 r1 ∈ pre ∧
        Event.opDone n 2 r2 ∈ pre) := by
  have hpw := main_loop_rank_sorted inp fuel s
  rw [htr] at hpw
  have hsplit := List.pairwise_append.mp hpw
  have hpost := (List.pairwise_cons.mp hsplit.2.1).1
  have hpre : ∀ e ∈ pre, evRank e ≤ evRank (Event.summary n k) :=
    fun e he => hsplit.2.2 e he (Event.summary n k) (List.mem_cons_self _ _)
  refine ⟨?_, ?_, ?_⟩
  · intro m i r hm
    have h1 := hpre _ hm
    have h2 : evRank (Event.opDone m i r) = 4 * m + 1 := rfl
    have h3 : evRank (Event.summary n k) = 4 * n + 2 := rfl
    omega
  · intro m i r hm
    have h1 := hpost _ hm
    have h2 : evRank (Event.opDone m i r) = 4 * m + 1 := rfl
    have h3 : evRank (Event.summary n k) = 4 * n + 2 := rfl
    omega
  · have hmem : Event.summary n k ∈ main_loop inp fuel s := by
      rw [htr]; exact List.mem_append_right _ (List.mem_cons_self _ _)
    obtain ⟨r0, r1, r2, h0, h1, h2⟩ := summary_mem_ops inp fuel s n k hmem
    have hloc : ∀ (i : Nat) (r : CycleItem),
        Event.opDone n i r ∈ main_loop inp fuel s →
        Event.opDone n i r ∈ pre := by
      intro i r hmm
      rw [htr] at hmm
      rcases List.mem_append.mp hmm with h | h
      · exact h
      · rcases List.mem_cons.mp h with h | h
        · exact absurd h (by simp)
        · exfalso
          have hr := hpost _ h
          have e2 : evRank (Event.opDone n i r) = 4 * n + 1 := rfl
          have e3 : evRank (Event.summary n k) = 4 * n + 2 := rfl
          omega
    exact ⟨r0, r1, r2, hloc 0 r0 h0, hloc 1 r1 h1, hloc 2 r2 h2⟩

/-- The PostgreSQL gather entry of a fully successful sample cycle. -/
def itemPgOk : CycleItem := .value (update_postgres "2026-10-12T00:00:00" (.ok ()))

/-- The Valkey gather entry of a fully successful sample cycle. -/
def itemVkOk : CycleItem := .value (update_valkey "2026-10-12T00:00:00" (.ok ()))

/-- The Secrets Manager gather entry of a fully successful sample cycle. -/
def itemSmOk : CycleItem :=
  .value (update_secrets_manager sampleEnv "2026-10-12T00:00:00" (some ()) (.ok ()))

/-- The events preceding the first cycle summary in the sample shutdown run. -/
def preSample : List Event :=
  [Event.cycleStart 1, Event.opDone 1 0 itemPgOk,
   Event.opDone 1 1 itemVkOk, Event.opDone 1 2 itemSmOk]

/-- The events following the first cycle summary in the sample shutdown run. -/
def postSample : List Event := [Event.exitLoop 1]

theorem cycles_do_not_overlap_witness : (1 : Nat) ≤ 1 :=
  (cycles_do_not_overlap inpShutdownMidWait 2 initialState preSample
    postSample 1 3 (by decide)).1 1 0 itemPgOk (by decide)

end PocApp
